import Mathlib

/-!
Verification of the `asynccloud` SoundCloud API client.

This file is a shallow embedding, in Lean 4, of the request-dispatch and
pagination engine of the repository (files `asynccloud/arequests.py` and
`asynccloud/asoundcloud.py`), together with theorems settling the spec
claims about it.

Modelling conventions:
* Python JSON values are the inductive `Json`; Python parameter values
  (ints, strings, lists) are `PyVal`.
* Python `dict`s are association lists with unique keys; dict assignment
  replaces the value of an existing key in place (`aupdate`) and
  `dict.pop` removes a key (`removeKey`).
* Fallible Python code returns `Except PyErr`; an async generator is
  modelled by the finite trace of events (HTTP fetches and yields) it
  performs when driven to completion, in program order, so that the
  events preceding the k-th yield of the trace are exactly the work done
  before a consumer receives the k-th record.
* The external HTTP collaborators are modelled from their documented
  behaviour: `aiohttp` with `raise_for_status=True` raises
  `ClientResponseError` for every response status of 400 or more;
  `requests.Response.raise_for_status` raises `HTTPError` for statuses
  in [400, 600).
-/

set_option autoImplicit false

/-- Python exceptions that the embedded code can raise. -/
inductive PyErr where
  | clientResponseError (status : Nat)
  | httpError (status : Nat)
  | valueError (msg : String)
  | keyError (key : String)
  | typeError (msg : String)
  | assertionError
deriving DecidableEq

/-- Decoded JSON values (`await r.json()` results). -/
inductive Json where
  | null
  | bool (b : Bool)
  | num (n : Int)
  | str (s : String)
  | arr (elems : List Json)
  | obj (fields : List (String × Json))

/-- Python parameter values as they occur in request `params` dicts. -/
inductive PyVal where
  | str (s : String)
  | int (n : Int)
  | list (xs : List PyVal)

/-- First-match lookup in an association list (Python `dict` access;
dict keys are unique, so first match is the unique match). -/
def alookup {β : Type} (k : String) : List (String × β) → Option β
  | [] => none
  | (k', v) :: rest => if k' = k then some v else alookup k rest

/-- Python dict assignment `d[k] = v`: replaces the value of an existing
key in place, otherwise appends the new key at the end. -/
def aupdate {β : Type} (k : String) (v : β) : List (String × β) → List (String × β)
  | [] => [(k, v)]
  | (k', v') :: rest => if k' = k then (k', v) :: rest else (k', v') :: aupdate k v rest

/-- Python `dict.pop(k, None)`: removes the key if present. -/
def removeKey {β : Type} (k : String) (l : List (String × β)) : List (String × β) :=
  l.filter (fun kv => decide (kv.1 ≠ k))

/-- `d[k]` on a JSON object (Python `dict` subscript). -/
def Json.getField : Json → String → Option Json
  | .obj fs, k => alookup k fs
  | _, _ => none

/-! ## `_convert_dict` (arequests.py, lines 40-50): the polymorphic decoder

A Python result type is either a single `BaseData` subclass (whose
`from_dict` classmethod performs the structural construction) or a
`Union[...]` of several candidates.  We model a candidate as a name
together with its `from_dict` function into a common Lean result type. -/

/-- The `return_type` parameter of a request: a single type or a
`Union` of candidate types, each with its `from_dict` constructor. -/
inductive ReturnType (α : Type) where
  | single (name : String) (from_dict : Json → Except PyErr α)
  | union (candidates : List (String × (Json → Except PyErr α)))

/-- The `for t in get_args(return_type)` loop of `_convert_dict`:
try each candidate's `from_dict`, swallowing every exception, and
return the first success. -/
def tryCandidates {α : Type} (d : Json) :
    List (String × (Json → Except PyErr α)) → Option α
  | [] => none
  | (_, dec) :: rest =>
    match dec d with
    | .ok v => some v
    | .error _ => tryCandidates d rest

/-- The comma-separated candidate names, as they appear inside the
`Union[...]` of the source's error message. -/
def unionNames {α : Type} : List (String × (Json → Except PyErr α)) → String
  | [] => ""
  | [(n, _)] => n
  | (n, _) :: rest => n ++ ", " ++ unionNames rest

/-- The message of the `ValueError` raised when no candidate matched
(the source also interpolates the payload repr, which plays no role in
the claims). -/
def couldNotConvertMsg {α : Type} (cands : List (String × (Json → Except PyErr α))) : String :=
  "Could not convert to type Union[" ++ unionNames cands ++ "]"

/-- `_convert_dict(d, return_type)` (arequests.py, lines 40-50).
For a union, candidates are tried in declared order with all their
exceptions swallowed; if none matches, a `ValueError` naming the
attempted types is raised.  For a single type, `from_dict` is called
directly and its exceptions propagate. -/
def convertDict {α : Type} (d : Json) : ReturnType α → Except PyErr α
  | .single _ from_dict => from_dict d
  | .union cands =>
    match tryCandidates d cands with
    | some v => .ok v
    | none => .error (.valueError (couldNotConvertMsg cands))

/-! ## Auth state (`asoundcloud.py`, `AsyncCloud`)

The mutable client state: `client_id`, `_auth_token`, the derived
`_authorization` header value, and the shared `aiohttp` session's
header dict. -/

/-- The fields of `AsyncCloud` relevant to auth-state management. -/
structure AsyncCloud where
  client_id : String
  user_agent : String
  auth_token : Option String
  authorization : Option String
  session_headers : List (String × String)

/-- Python truthiness of an optional string: `None` and `""` are falsy. -/
def pyTruthyOptStr : Option String → Bool
  | none => false
  | some s => decide (s ≠ "")

/-- `f"OAuth {tok}"` interpolation of an optional token
(`None` renders as the string `None`, as in Python). -/
def pyStrOptTok : Option String → String
  | none => "None"
  | some s => s

/-- List starts-with on characters. -/
def chStarts : List Char → List Char → Bool
  | _, [] => true
  | [], _ :: _ => false
  | a :: as, b :: bs => decide (a = b) && chStarts as bs

/-- Python `str.startswith`. -/
def pyStartsWith (s p : String) : Bool :=
  chStarts s.data p.data

/-- Helper for Python `str.split()` (split on whitespace runs,
dropping empty pieces); the accumulator holds the current piece
reversed. -/
def splitWsAux : List Char → List Char → List (List Char)
  | [], cur => if cur.isEmpty then [] else [cur.reverse]
  | c :: rest, cur =>
    if c.isWhitespace then
      if cur.isEmpty then splitWsAux rest [] else cur.reverse :: splitWsAux rest []
    else splitWsAux rest (c :: cur)

/-- Python `str.split()` with no arguments. -/
def pySplit (s : String) : List String :=
  (splitWsAux s.data []).map String.mk

/-- The `use_auth` property getter (asoundcloud.py, lines 114-117):
`return self._auth_token is not None`. -/
def useAuth (c : AsyncCloud) : Bool :=
  c.auth_token.isSome

/-- The `use_auth` property setter (asoundcloud.py, lines 119-129).
Raises `ValueError` when enabling auth without a (truthy) token;
enabling installs the derived header into the session headers;
disabling clears the derived header and pops `Authorization`. -/
def setUseAuth (c : AsyncCloud) (value : Bool) : Except PyErr AsyncCloud :=
  if value && !pyTruthyOptStr c.auth_token then
    .error (.valueError "Cannot set use_auth to True without an auth token.")
  else if value then
    let auth := "OAuth " ++ pyStrOptTok c.auth_token
    .ok { c with authorization := some auth
                 session_headers := aupdate "Authorization" auth c.session_headers }
  else
    .ok { c with authorization := none
                 session_headers := removeKey "Authorization" c.session_headers }

/-- The `auth_token` property setter (asoundcloud.py, lines 136-142).
A token carrying an `OAuth` scheme marker is normalized by
`split()[-1]`; the derived `_authorization` value is recomputed
(`None` for a falsy token).  The session headers are not touched. -/
def setAuthToken (c : AsyncCloud) (new_auth_token : Option String) : AsyncCloud :=
  let tok : Option String :=
    match new_auth_token with
    | some s => if pyStartsWith s "OAuth" then some (((pySplit s).getLast?).getD "") else some s
    | none => none
  { c with
    authorization := match tok with
      | some s => if s = "" then none else some ("OAuth " ++ s)
      | none => none
    auth_token := tok }

/-- The `auth_token` deleter (asoundcloud.py, lines 144-146):
`self.auth_token = None`. -/
def delAuthToken (c : AsyncCloud) : AsyncCloud :=
  setAuthToken c none

/-! ## `get_user_by_username` (asoundcloud.py, lines 462-471)

`resolve` is an `async` method; calling it without `await` (as
`get_user_by_username` does) returns a coroutine object, which is
truthy and is not an instance of `User`. -/

/-- A `User` record (only identity matters for the claims). -/
structure UserData where
  user_id : Nat

/-- A Python object as seen by `get_user_by_username`: the result of a
resolve can be a user, some other resource, or `None`; an un-awaited
call of an async function is a coroutine object wrapping the value the
await would produce. -/
inductive PyObject where
  | pyNone
  | pyUser (u : UserData)
  | pyOther (tag : String)
  | pyCoroutine (result : PyObject)

/-- Python truthiness of these objects (`None` is falsy; users,
resources and coroutine objects are truthy). -/
def pyTruthyObj : PyObject → Bool
  | .pyNone => false
  | _ => true

/-- `isinstance(x, User)`. -/
def isinstanceUser : PyObject → Bool
  | .pyUser _ => true
  | _ => false

/-- `self.resolve(url)` *without* `await`: returns the coroutine
object, not the resolved resource.  `server` gives the value an
awaited resolve would produce for each URL. -/
def resolveUnawaited (server : String → PyObject) (url : String) : PyObject :=
  PyObject.pyCoroutine (server url)

/-- `get_user_by_username` (asoundcloud.py, lines 462-471):
`resource = self.resolve(f"https://soundcloud.com/{username}")` (no
await), then `if resource and isinstance(resource, User): return
resource else return None`. -/
def getUserByUsername (server : String → PyObject) (username : String) : Option UserData :=
  let resource := resolveUnawaited server ("https://soundcloud.com/" ++ username)
  if pyTruthyObj resource && isinstanceUser resource then
    match resource with
    | .pyUser u => some u
    | _ => none
  else
    none

/-! ## `Request._format_url_and_remove_params` (arequests.py, lines 60-70)

`string.Formatter().parse` splits a format template into literal text
and `{name}` replacement fields; the method collects the field names,
moves the matching keys out of `kwargs` into `args`, and returns
`self.base + self.format_url.format(**args)`.  Format specs and
conversions (`{x:spec}`, `{x!r}`) are not used by any endpoint of the
repository and are not modelled; escaped braces are. -/

/-- One piece of a parsed format string. -/
inductive FmtSeg where
  | lit (s : String)
  | field (name : String)
deriving DecidableEq

/-- The format-string scanner behind `string.Formatter().parse`.  The
second argument is `some acc` while inside a `{...}` replacement field
(accumulated name, reversed).  `\x7b\x7b` and `\x7d\x7d` are escaped
literal braces; a lone closing brace or an unterminated field raises
`ValueError`, as in Python. -/
def parseFmtAux : List Char → Option (List Char) → Except PyErr (List FmtSeg)
  | [], none => .ok []
  | [], some _ => .error (.valueError "Single '\x7b' encountered in format string")
  | c :: rest, some acc =>
    if c = '}' then do
      pure (FmtSeg.field (String.mk acc.reverse) :: (← parseFmtAux rest none))
    else
      parseFmtAux rest (some (c :: acc))
  | '{' :: '{' :: rest2, none => do
    pure (FmtSeg.lit "\x7b" :: (← parseFmtAux rest2 none))
  | '{' :: rest, none =>
    parseFmtAux rest (some [])
  | '}' :: '}' :: rest2, none => do
    pure (FmtSeg.lit "\x7d" :: (← parseFmtAux rest2 none))
  | '}' :: _, none =>
    .error (.valueError "Single '\x7d' encountered in format string")
  | c :: rest, none => do
    pure (FmtSeg.lit (String.mk [c]) :: (← parseFmtAux rest none))

/-- Parse a path template into literal and field segments. -/
def parseFmt (s : String) : Except PyErr (List FmtSeg) :=
  parseFmtAux s.data none

/-- The `format_args` set of `_format_url_and_remove_params`: the field
names occurring in the template. -/
def fieldNames (segs : List FmtSeg) : List String :=
  segs.filterMap (fun s => match s with | .field n => some n | _ => none)

/-- Python `str(value)` for the values substituted into a path template
(path parameters in this repository are ints and strings; list values
never reach a path template). -/
def pyStr : PyVal → String
  | .str s => s
  | .int n => toString n
  | .list _ => "<list>"

/-- `format_url.format(**args)`: substitute each field from `args`,
raising `KeyError` for a missing field. -/
def renderFmt (args : List (String × PyVal)) : List FmtSeg → Except PyErr String
  | [] => .ok ""
  | .lit s :: rest => do pure (s ++ (← renderFmt args rest))
  | .field n :: rest =>
    match alookup n args with
    | none => .error (.keyError n)
    | some v => do pure (pyStr v ++ (← renderFmt args rest))

/-- `Request.base` (arequests.py, line 55). -/
def requestBase : String := "https://api-v2.soundcloud.com"

/-- `Request._format_url_and_remove_params` (arequests.py, lines
60-70): parse the template, partition `kwargs` into the path arguments
(keys that are field names; they are popped from `kwargs`) and the
residual parameters, and resolve the URL against the path arguments. -/
def formatUrlAndRemoveParams (format_url : String) (kwargs : List (String × PyVal)) :
    Except PyErr (String × List (String × PyVal)) := do
  let segs ← parseFmt format_url
  let fns := fieldNames segs
  let args := kwargs.filter (fun kv => decide (kv.1 ∈ fns))
  let residual := kwargs.filter (fun kv => decide (kv.1 ∉ fns))
  let rendered ← renderFmt args segs
  pure (requestBase ++ rendered, residual)

/-! ## HTTP transport collaborators -/

/-- An HTTP response: status code and decoded JSON body. -/
structure HttpResp where
  status : Nat
  body : Json

/-- `aiohttp` with `raise_for_status=True`: `resp.raise_for_status()`
is invoked as soon as the response arrives and raises
`ClientResponseError` whenever `status >= 400`. -/
def aiohttpRaiseForStatus (r : HttpResp) : Except PyErr HttpResp :=
  if 400 ≤ r.status then .error (.clientResponseError r.status) else .ok r

/-- `requests.Response.raise_for_status`: raises `HTTPError` for
client-error and server-error statuses (400-599). -/
def requestsRaiseForStatus (r : HttpResp) : Except PyErr HttpResp :=
  if 400 ≤ r.status ∧ r.status < 600 then .error (.httpError r.status) else .ok r

/-- Python iteration over a decoded JSON value (`for x in data`):
arrays yield their elements, dicts their keys, strings their
characters; anything else raises `TypeError`. -/
def pyIter : Json → Except PyErr (List Json)
  | .arr xs => .ok xs
  | .obj fs => .ok (fs.map (fun kv => Json.str kv.1))
  | .str s => .ok (s.data.map (fun c => Json.str (String.mk [c])))
  | _ => .error (.typeError "object is not iterable")

/-! ## `SingleRequest.__call__` (arequests.py, lines 75-101) -/

/-- A `SingleRequest` endpoint definition. -/
structure SingleRequestDef (α : Type) where
  format_url : String
  return_type : ReturnType α
  method : String := "GET"

/-- `SingleRequest.__call__`: resolve the URL, add `client_id` to the
params, issue the request with `raise_for_status=True` (so every
status of 400 or more raises `ClientResponseError` before the body of
the `async with` runs), then return `None` for statuses 400/404/500
(unreachable) or decode the body.  `resp` is the response the server
would produce for this request. -/
def SingleRequestDef.call {α : Type} (req : SingleRequestDef α) (client_id : String)
    (kwargs : List (String × PyVal)) (resp : HttpResp) : Except PyErr (Option α) := do
  let fr ← formatUrlAndRemoveParams req.format_url kwargs
  let _params := aupdate "client_id" (PyVal.str client_id) fr.2
  let r ← aiohttpRaiseForStatus resp
  if r.status = 400 ∨ r.status = 404 ∨ r.status = 500 then
    pure none
  else do
    pure (some (← convertDict r.body req.return_type))

/-! ## `ListRequest.__call__` (arequests.py, lines 156-174) -/

/-- A `ListRequest` endpoint definition. -/
structure ListRequestDef (α : Type) where
  format_url : String
  return_type : ReturnType α

/-- `ListRequest.__call__`: one request with `raise_for_status=True`
(statuses of 400 or more raise `ClientResponseError`); the 400/404/500
check returning `[]` is unreachable; otherwise every element of the
body is decoded and collected. -/
def ListRequestDef.call {α : Type} (req : ListRequestDef α) (client_id : String)
    (kwargs : List (String × PyVal)) (resp : HttpResp) : Except PyErr (List α) := do
  let fr ← formatUrlAndRemoveParams req.format_url kwargs
  let _params := aupdate "client_id" (PyVal.str client_id) fr.2
  let r ← aiohttpRaiseForStatus resp
  if r.status = 400 ∨ r.status = 404 ∨ r.status = 500 then
    pure []
  else do
    let items ← pyIter r.body
    items.mapM (fun j => convertDict j req.return_type)

/-! ## `GraphQLRequest.__call__` (arequests.py, lines 189-209) -/

/-- A `GraphQLRequest` endpoint definition. -/
structure GraphQLRequestDef (α : Type) where
  operation_name : String
  return_type : ReturnType α
  query_template_str : String

/-- `GraphQLRequest.__call__`: posts
`(operationName, query, variables)` with `client_id` as query
parameter (plain blocking `requests.post`, no `raise_for_status`
argument), returns `None` when the status is 400/404/500, raises via
`r.raise_for_status()` for every other non-2xx status, and otherwise
decodes the `data` field of the body. -/
def GraphQLRequestDef.call {α : Type} (req : GraphQLRequestDef α) (client_id : String)
    (resp : HttpResp) : Except PyErr (Option α) :=
  let _params := aupdate "client_id" (PyVal.str client_id) ([] : List (String × PyVal))
  if resp.status = 400 ∨ resp.status = 404 ∨ resp.status = 500 then
    .ok none
  else do
    let r ← requestsRaiseForStatus resp
    match r.body.getField "data" with
    | none => .error (.keyError "data")
    | some d => pure (some (← convertDict d req.return_type))

/-! ## `CollectionRequest.__call__` (arequests.py, lines 112-145)

The paginated-collection shape is an async generator.  We model it by
the trace of events it performs in program order: a `fetch` event each
time `client.session.get` is issued (recording the URL and params of
that request) and a `yielded` event for each record handed to the
consumer.  A consumer that stops after the k-th record executes
exactly the trace prefix up to and including the k-th `yielded` event.

The `while` loop re-derives the follow-up request from `next_href`
with `urlparse`, `parse_qs` and `urljoin` from `urllib.parse`; these
collaborators are modelled below for absolute http(s) URLs (no `;`
path parameters, no percent-decoding — cursor parameters are passed
through opaquely). -/

/-- Split a character list at the first occurrence of `c`: the part
before it and, when found, the part after it. -/
def breakAtFirst (c : Char) : List Char → List Char × Option (List Char)
  | [] => ([], none)
  | x :: rest =>
    if x = c then ([], some rest)
    else
      let r := breakAtFirst c rest
      (x :: r.1, r.2)

/-- Models `urlparse(u).query`: the fragment is split off at the first
`#`, the query is the text after the first `?` of what remains. -/
def urlQuery (u : String) : String :=
  let noFrag := (breakAtFirst '#' u.data).1
  match (breakAtFirst '?' noFrag).2 with
  | some q => String.mk q
  | none => ""

/-- Models `urljoin(u, urlparse(u).path)` for an absolute http(s) URL
`u`: the URL with its query and fragment stripped. -/
def urlStripQuery (u : String) : String :=
  String.mk (u.data.takeWhile (fun c => decide (c ≠ '?') && decide (c ≠ '#')))

/-- Split a character list on a separator character (keeping empty
pieces, like `str.split("&")`). -/
def splitOnChar (sep : Char) : List Char → List (List Char)
  | [] => [[]]
  | c :: rest =>
    let r := splitOnChar sep rest
    if c = sep then [] :: r
    else
      match r with
      | [] => [[c]]
      | h :: t => (c :: h) :: t

/-- One `k=v` piece of a query string; pieces without `=` or with an
empty value are dropped (`parse_qs` default `keep_blank_values=False`). -/
def qsPair (seg : List Char) : Option (String × String) :=
  match breakAtFirst '=' seg with
  | (_, none) => none
  | (k, some v) => if v.isEmpty then none else some (String.mk k, String.mk v)

/-- Fold one key/value pair into a grouped `parse_qs` result,
preserving first-occurrence key order. -/
def addQsPair (acc : List (String × List String)) (k v : String) :
    List (String × List String) :=
  match acc with
  | [] => [(k, [v])]
  | (k', vs) :: rest =>
    if k' = k then (k', vs ++ [v]) :: rest else (k', vs) :: addQsPair rest k v

/-- Models `parse_qs(q)`: the query string grouped into a dict from
key to list of values. -/
def parseQs (q : String) : List (String × List String) :=
  ((splitOnChar '&' q.data).filterMap qsPair).foldl (fun acc p => addQsPair acc p.1 p.2) []

/-- A grouped query dict as a params dict of list values. -/
def qsToParams (l : List (String × List String)) : List (String × PyVal) :=
  l.map (fun kv => (kv.1, PyVal.list (kv.2.map PyVal.str)))

/-- One event of a collection-request execution. -/
inductive CollEv (α : Type) where
  | fetch (url : String) (params : List (String × PyVal))
  | yielded (a : α)

/-- How a collection-request execution ended: normal loop exit,
a raised exception, or (a model artifact) the supplied response list
ran out while the loop still wanted to fetch. -/
inductive CollEnd where
  | finished
  | errored (e : PyErr)
  | starved
deriving DecidableEq

/-- The `for resource in data["collection"]: yield _convert_dict(...)`
loop: yields decoded records in array order until the first decode
error, which is raised after the preceding yields. -/
def decodeEach {α : Type} (rt : ReturnType α) : List Json → List (CollEv α) × Option PyErr
  | [] => ([], none)
  | j :: rest =>
    match convertDict j rt with
    | .error e => ([], some e)
    | .ok v =>
      let r := decodeEach rt rest
      (CollEv.yielded v :: r.1, r.2)

/-- The `while resource_url:` loop of `CollectionRequest.__call__`
(arequests.py, lines 127-145), driven by the list of responses the
server returns to successive requests.  Each iteration: stop if
`resource_url` is falsy; issue the GET (a `fetch` event) with
`raise_for_status=True`, so any status of 400 or more raises
`ClientResponseError` (making the 400/404/500 early-return
unreachable); yield the decoded records of `data["collection"]`; then
rebuild `resource_url` and `params` from `data.get("next_href")` —
`urlparse(None)` yields all-empty parts, so a missing (or null)
`next_href` makes `resource_url` the empty string and ends the loop. -/
def collLoop {α : Type} (rt : ReturnType α) (client_id : String) :
    List HttpResp → String → List (String × PyVal) → List (CollEv α) × CollEnd
  | responses, url, params =>
    if url = "" then ([], .finished)
    else
      match responses with
      | [] => ([], .starved)
      | r :: rest =>
        let ev := CollEv.fetch url params
        if 400 ≤ r.status then
          ([ev], .errored (.clientResponseError r.status))
        else if r.status = 400 ∨ r.status = 404 ∨ r.status = 500 then
          ([ev], .finished)
        else
          match r.body.getField "collection" with
          | none => ([ev], .errored (.keyError "collection"))
          | some col =>
            match pyIter col with
            | .error e => ([ev], .errored e)
            | .ok items =>
              match decodeEach rt items with
              | (ys, some e) => (ev :: ys, .errored e)
              | (ys, none) =>
                match r.body.getField "next_href" with
                | some (Json.str s) =>
                  let params' := aupdate "client_id" (PyVal.list [PyVal.str client_id])
                    (qsToParams (parseQs (urlQuery s)))
                  let t := collLoop rt client_id rest (urlStripQuery s) params'
                  (ev :: (ys ++ t.1), t.2)
                | _ =>
                  let params' := aupdate "client_id" (PyVal.list [PyVal.str client_id])
                    (qsToParams (parseQs ""))
                  let t := collLoop rt client_id rest "" params'
                  (ev :: (ys ++ t.1), t.2)

/-- A `CollectionRequest` endpoint definition. -/
structure CollectionRequestDef (α : Type) where
  format_url : String
  return_type : ReturnType α

/-- The initial `params` dict of `CollectionRequest.__call__`
(arequests.py, lines 120-126): the residual kwargs with `client_id`
always added and `offset`/`limit` added when supplied. -/
def initParams (client_id : String) (offset limit : Option PyVal)
    (residual : List (String × PyVal)) : List (String × PyVal) :=
  let p := aupdate "client_id" (PyVal.str client_id) residual
  let p := match offset with
    | some o => aupdate "offset" o p
    | none => p
  match limit with
  | some l => aupdate "limit" l p
  | none => p

/-- `CollectionRequest.__call__` (arequests.py, lines 112-145):
resolve the URL, build the initial params, and run the pagination
loop; the result is the event trace of the generator together with how
it ended. -/
def CollectionRequestDef.call {α : Type} (req : CollectionRequestDef α)
    (client_id : String) (offset limit : Option PyVal)
    (kwargs : List (String × PyVal)) (responses : List HttpResp) :
    Except PyErr (List (CollEv α) × CollEnd) := do
  let fr ← formatUrlAndRemoveParams req.format_url kwargs
  pure (collLoop req.return_type client_id responses fr.1 (initParams client_id offset limit fr.2))

/-! ## `get_track_comments_with_interactions` (asoundcloud.py, lines 357-412)

The composed operation: fetch the track, then drain the comment
generator in batches of 10 (`islice(comments, 10)`) and, per batch,
issue one `UserInteractionsRequest` GraphQL query over the batch's
comment URNs.  The comment generator is modelled by the list of
comments it yields; the GraphQL endpoint by an oracle from query
params to the optional decoded result (`None` models the swallowed
400/404/500 statuses of the GraphQL shape). -/

/-- A comment as consumed by the composed operation
(`comment.self.urn` is its URN). -/
structure BasicComment where
  self_urn : String
deriving DecidableEq

/-- One `interactionCounts` entry of a GraphQL user interaction. -/
structure InteractionCount where
  count : Option Int
  interactionTypeValueUrn : String
deriving DecidableEq

/-- A GraphQL `UserInteraction` record. -/
structure UserInteraction where
  interactionCounts : Option (List InteractionCount)
  userInteraction : Option String
deriving DecidableEq

/-- `UserInteractionsQueryResult` (arequests.py, lines 325-328). -/
structure UserInteractionsQueryResult where
  user : List UserInteraction
  creator : List UserInteraction
deriving DecidableEq

/-- `UserInteractionsQueryParams` (arequests.py, lines 331-336). -/
structure UserInteractionsQueryParams where
  createdByProfileUrn : String
  interactionTypeUrn : String
  parentUrn : String
  targetUrns : List String
deriving DecidableEq

/-- `CommentWithInteractions` (soundcloud.resource.graphql). -/
structure CommentWithInteractions where
  comment : BasicComment
  likes : Int
  liked_by_creator : Bool
  liked_by_user : Bool
deriving DecidableEq

/-- The track fields the composed operation reads (`track.urn`,
`track.user.urn`). -/
structure TrackInfo where
  urn : String
  user_urn : String

/-- Python `zip` over three lists: truncates at the shortest. -/
def pyZip3 {a b c : Type} : List a → List b → List c → List (a × b × c)
  | x :: xs, y :: ys, z :: zs => (x, y, z) :: pyZip3 xs ys zs
  | _, _, _ => []

/-- The body of the `for comment, user_interactions,
creator_interactions in zip(...)` loop (asoundcloud.py, lines
388-409): assert the user interaction has counts, extract the `like`
count (`likes[0].count if likes else 0`, then `or 0`), and build the
enriched comment. -/
def enrichOne (comment : BasicComment) (ui ci : UserInteraction) :
    Except PyErr CommentWithInteractions :=
  match ui.interactionCounts with
  | none => .error .assertionError
  | some counts =>
    let likesList := counts.filter
      (fun x => decide (x.interactionTypeValueUrn = "sc:interactiontypevalue:like"))
    let num_likes : Option Int :=
      match likesList with
      | [] => some 0
      | x :: _ => x.count
    let likesVal : Int :=
      match num_likes with
      | none => 0
      | some n => if n = 0 then 0 else n
    .ok { comment := comment
          likes := likesVal
          liked_by_creator := decide (ci.userInteraction = some "sc:interactiontypevalue:like")
          liked_by_user := decide (ui.userInteraction = some "sc:interactiontypevalue:like") }

/-- Run the loop body over the zipped triples, propagating the first
assertion failure. -/
def enrichAll : List (BasicComment × UserInteraction × UserInteraction) →
    Except PyErr (List CommentWithInteractions)
  | [] => .ok []
  | t :: rest =>
    match enrichOne t.1 t.2.1 t.2.2 with
    | .error e => .error e
    | .ok out =>
      match enrichAll rest with
      | .error e => .error e
      | .ok outs => .ok (out :: outs)

/-- Enrich one batch: zip the chunk with the result's `user` and
`creator` interaction lists and run the loop body on each triple; an
assertion failure aborts the whole batch before any of it is yielded. -/
def enrichChunk (chunk : List BasicComment) (us cs : List UserInteraction) :
    Except PyErr (List CommentWithInteractions) :=
  enrichAll (pyZip3 chunk us cs)

/-- The GraphQL query parameters built for one batch (asoundcloud.py,
lines 376-384). -/
def mkInteractionParams (track_urn creator_urn : String) (urns : List String) :
    UserInteractionsQueryParams :=
  { createdByProfileUrn := creator_urn
    interactionTypeUrn := "sc:interactiontype:reaction"
    parentUrn := track_urn
    targetUrns := urns }

/-- The `while True:` loop of `get_track_comments_with_interactions`
(asoundcloud.py, lines 369-412), returning the yielded enriched
comments, the list of GraphQL queries issued (in order), and the
exception raised, if any.  Each iteration takes the next 10 comments
(`islice(comments, 10)`); an empty chunk ends the loop; a `None`
GraphQL result (swallowed 400/404/500) ends the loop after the query
was issued. -/
def commentsLoop (oracle : UserInteractionsQueryParams → Option UserInteractionsQueryResult)
    (track_urn creator_urn : String) :
    List BasicComment →
    List CommentWithInteractions × List UserInteractionsQueryParams × Option PyErr
  | [] => ([], [], none)
  | c0 :: cs0 =>
    let chunk := (c0 :: cs0).take 10
    let comment_urns := chunk.map (fun c => c.self_urn)
    let q := mkInteractionParams track_urn creator_urn comment_urns
    match oracle q with
    | none => ([], [q], none)
    | some result =>
      match enrichChunk chunk result.user result.creator with
      | .error e => ([], [q], some e)
      | .ok outs =>
        let r := commentsLoop oracle track_urn creator_urn ((c0 :: cs0).drop 10)
        (outs ++ r.1, q :: r.2.1, r.2.2)
termination_by comments => comments.length
decreasing_by
  simp; omega

/-- `get_track_comments_with_interactions` (asoundcloud.py, lines
357-412): fetch the track (here supplied as the optional decoded
result of `get_track`); a missing track ends the generator at once;
otherwise run the batch loop with the track's URN and its creator's
URN. -/
def getTrackCommentsWithInteractions (track : Option TrackInfo)
    (oracle : UserInteractionsQueryParams → Option UserInteractionsQueryResult)
    (comments : List BasicComment) :
    List CommentWithInteractions × List UserInteractionsQueryParams × Option PyErr :=
  match track with
  | none => ([], [], none)
  | some t => commentsLoop oracle t.urn t.user_urn comments

/-- The successive batches of 10 a list is consumed in. -/
def chunks10 {γ : Type} : List γ → List (List γ)
  | [] => []
  | c0 :: cs0 => (c0 :: cs0).take 10 :: chunks10 ((c0 :: cs0).drop 10)
termination_by l => l.length
decreasing_by
  simp; omega

/-! ## Shared concrete fixtures -/

/-- A concrete `from_dict` used as a stand-in decoded record type:
a bare JSON number decodes to itself, everything else fails. -/
def numFromDict : Json → Except PyErr Int
  | Json.num n => .ok n
  | _ => .error (.typeError "missing attribute")

/-- A concrete single-candidate return type. -/
def numRT : ReturnType Int := .single "BasicTrack" numFromDict

/-- The `TrackRequest` endpoint (arequests.py, line 254) over the
stand-in record type. -/
def trackReq : SingleRequestDef Int :=
  { format_url := "/tracks/{track_id}", return_type := numRT }

/-- The `TracksRequest` endpoint (arequests.py, line 255) over the
stand-in record type. -/
def tracksReq : ListRequestDef Int :=
  { format_url := "/tracks", return_type := numRT }

/-- The `UserInteractionsRequest` GraphQL endpoint (arequests.py,
lines 339-382) over the stand-in record type. -/
def gqlReq : GraphQLRequestDef Int :=
  { operation_name := "UserInteractions", return_type := numRT,
    query_template_str := "query UserInteractions" }

/-- A client constructed with no auth token. -/
def testClient : AsyncCloud :=
  { client_id := "cid", user_agent := "ua", auth_token := none,
    authorization := none, session_headers := [("User-Agent", "ua")] }

/-- A client holding an auth token. -/
def testClientAuthed : AsyncCloud :=
  { client_id := "cid", user_agent := "ua", auth_token := some "abc",
    authorization := some "OAuth abc",
    session_headers := [("User-Agent", "ua"), ("Authorization", "OAuth abc")] }

/-! ## Specification-side helpers for the pagination claims -/

/-- Decoding a whole `collection` array, propagating the first
failure (the sequential composition of `_convert_dict` calls the
collection loop performs). -/
def decodeList {α : Type} (rt : ReturnType α) : List Json → Except PyErr (List α)
  | [] => .ok []
  | j :: rest =>
    match convertDict j rt with
    | .error e => .error e
    | .ok v =>
      match decodeList rt rest with
      | .error e => .error e
      | .ok vs => .ok (v :: vs)

/-- One page of a collection endpoint, as data: the `collection`
records and the optional `next_href` cursor. -/
structure PageSpec where
  records : List Json
  next_href : Option String

/-- The HTTP 200 response serving a page. -/
def pageResp (p : PageSpec) : HttpResp :=
  { status := 200
    body := Json.obj (("collection", Json.arr p.records) ::
      (match p.next_href with
       | some s => [("next_href", Json.str s)]
       | none => [])) }

/-- The params dict of the follow-up request derived from a cursor
URL: the cursor's own query parameters with `client_id` re-added. -/
def cursorParams (client_id : String) (s : String) : List (String × PyVal) :=
  aupdate "client_id" (PyVal.list [PyVal.str client_id]) (qsToParams (parseQs (urlQuery s)))

/-- The follow-up request a cursor URL induces: its base URL (query
stripped) together with its re-merged parameters. -/
def fetchSpec (client_id : String) (s : String) : String × List (String × PyVal) :=
  (urlStripQuery s, cursorParams client_id s)

/-- The `resource_url` the loop recomputes after serving a page:
the cursor URL with its query stripped, or `""` when the page has no
cursor (`urljoin(None, "")`). -/
def pageNextUrl (p : PageSpec) : String :=
  match p.next_href with
  | some s => urlStripQuery s
  | none => ""

/-- The `params` the loop recomputes after serving a page. -/
def pageNextParams (client_id : String) (p : PageSpec) : List (String × PyVal) :=
  match p.next_href with
  | some s => cursorParams client_id s
  | none => aupdate "client_id" (PyVal.list [PyVal.str client_id]) (qsToParams (parseQs ""))

/-- The expected trace of a page chain: for each page, one fetch with
the corresponding request data followed by that page's yields. -/
def traceShape {α : Type} : List (List α) → List (String × List (String × PyVal)) →
    List (CollEv α)
  | [], _ => []
  | _ :: _, [] => []
  | d :: ds, f :: fs => CollEv.fetch f.1 f.2 :: (d.map CollEv.yielded ++ traceShape ds fs)

/-- The records a trace yields, in order. -/
def yieldsOf {α : Type} (t : List (CollEv α)) : List α :=
  t.filterMap (fun e => match e with | .yielded a => some a | _ => none)

/-- The HTTP requests a trace issues, in order. -/
def fetchesOf {α : Type} (t : List (CollEv α)) : List (String × List (String × PyVal)) :=
  t.filterMap (fun e => match e with | .fetch u p => some (u, p) | _ => none)

/-- The events a consumer executes when it consumes exactly `k`
records and then abandons the generator: the trace prefix up to and
including the k-th yield. -/
def consumedTrace {α : Type} : Nat → List (CollEv α) → List (CollEv α)
  | _, [] => []
  | 0, _ => []
  | k + 1, e :: rest =>
    match e with
    | .yielded a => CollEv.yielded a :: consumedTrace k rest
    | .fetch u p => CollEv.fetch u p :: consumedTrace (k + 1) rest

/-! ## Concrete fixtures for the claim witnesses -/

/-- The parse of the template `"/x/\x7ba\x7d/\x7bb\x7d"`. -/
def segsAB : List FmtSeg :=
  [FmtSeg.lit "/", FmtSeg.lit "x", FmtSeg.lit "/", FmtSeg.field "a",
   FmtSeg.lit "/", FmtSeg.field "b"]

/-- The parameter mapping of the spec's templating example. -/
def kwargsABC : List (String × PyVal) :=
  [("a", PyVal.int 1), ("b", PyVal.int 2), ("c", PyVal.int 3)]

/-- The `SearchTracksRequest` collection endpoint (arequests.py,
lines 236-238) over the stand-in record type. -/
def searchReq : CollectionRequestDef Int :=
  { format_url := "/search/tracks", return_type := numRT }

/-- Cursor URL leading to the second page. -/
def cursor2 : String := "https://api-v2.soundcloud.com/search/tracks?q=z&offset=2"

/-- Cursor URL leading to the third page. -/
def cursor3 : String := "https://api-v2.soundcloud.com/search/tracks?q=z&offset=3"

/-- First page of a three-page chain. -/
def wpage1 : PageSpec :=
  { records := [Json.num 1, Json.num 2]
    next_href := some cursor2 }

/-- Second page of a three-page chain. -/
def wpage2 : PageSpec :=
  { records := [Json.num 3]
    next_href := some cursor3 }

/-- Last page of a three-page chain: no `next_href`. -/
def wpage3 : PageSpec :=
  { records := [Json.num 4, Json.num 5]
    next_href := none }

/-- Fifteen comments `c0..c14`. -/
def cmts15 : List BasicComment :=
  (List.range 15).map (fun i => { self_urn := toString i })

/-- A GraphQL oracle answering every interaction query with
interaction lists of matching length. -/
def okOracle : UserInteractionsQueryParams → Option UserInteractionsQueryResult :=
  fun q => some
    { user := q.targetUrns.map (fun _ =>
        { interactionCounts := some [], userInteraction := none })
      creator := q.targetUrns.map (fun _ =>
        { interactionCounts := some [], userInteraction := none }) }

/-! ## Claim C1 -/

/-- Claim C1 (code bug): the spec says statuses 400/404/500 are
swallowed into absence/empty at every request shape and never raised.
The single-resource, collection and bulk-list shapes pass
`raise_for_status=True` to the session call, which raises
`ClientResponseError` for *every* status of 400 or more before the
in-body `if r.status in (400, 404, 500)` check can run, so those
statuses are raised, not swallowed — contradicting the shapes' own
docstrings ("If the resource does not exist, returns None").  Only the
GraphQL shape, which tests the status before calling
`raise_for_status()`, implements the claimed swallowing.  This theorem
evaluates all four shapes at the failing statuses. -/
theorem c1_swallowed_statuses_actually_raise :
    (trackReq.call "CID" [("track_id", PyVal.int 1)] { status := 400, body := Json.obj [] } =
      Except.error (PyErr.clientResponseError 400)) ∧
    (trackReq.call "CID" [("track_id", PyVal.int 1)] { status := 404, body := Json.obj [] } =
      Except.error (PyErr.clientResponseError 404)) ∧
    (trackReq.call "CID" [("track_id", PyVal.int 1)] { status := 500, body := Json.obj [] } =
      Except.error (PyErr.clientResponseError 500)) ∧
    (tracksReq.call "CID" [] { status := 404, body := Json.arr [] } =
      Except.error (PyErr.clientResponseError 404)) ∧
    (collLoop numRT "CID" [{ status := 404, body := Json.obj [] }]
        "https://api-v2.soundcloud.com/stream" [("client_id", PyVal.str "CID")] =
      ([CollEv.fetch "https://api-v2.soundcloud.com/stream" [("client_id", PyVal.str "CID")]],
        CollEnd.errored (PyErr.clientResponseError 404))) ∧
    (gqlReq.call "CID" { status := 404, body := Json.obj [] } = Except.ok none) ∧
    (gqlReq.call "CID" { status := 400, body := Json.obj [] } = Except.ok none) ∧
    (gqlReq.call "CID" { status := 500, body := Json.obj [] } = Except.ok none) ∧
    (gqlReq.call "CID" { status := 403, body := Json.obj [] } =
      Except.error (PyErr.httpError 403)) ∧
    (trackReq.call "CID" [("track_id", PyVal.int 1)] { status := 403, body := Json.obj [] } =
      Except.error (PyErr.clientResponseError 403)) :=
  ⟨rfl, rfl, rfl, rfl, rfl, rfl, rfl, rfl, rfl, rfl⟩

/-! ## Claim C3 -/

/-- Per-candidate first-match behaviour of the `_convert_dict` union
loop: if every earlier candidate fails on `d` and this candidate
succeeds, the loop returns this candidate's value. -/
theorem tryCandidates_first_success {α : Type} (d : Json)
    (cands₁ : List (String × (Json → Except PyErr α))) (n : String)
    (dec : Json → Except PyErr α) (cands₂ : List (String × (Json → Except PyErr α))) (v : α)
    (hf : ∀ c ∈ cands₁, ∃ e, c.2 d = Except.error e) (hd : dec d = Except.ok v) :
    tryCandidates d (cands₁ ++ (n, dec) :: cands₂) = some v := by
  induction cands₁ with
  | nil => simp [tryCandidates, hd]
  | cons c cs ih =>
    obtain ⟨nm, f⟩ := c
    obtain ⟨e, he⟩ := hf (nm, f) (by simp)
    simp only [List.cons_append, tryCandidates] at *
    rw [he]
    exact ih (fun c hc => hf c (by simp [hc]))

/-- If every candidate fails on `d`, the union loop falls through. -/
theorem tryCandidates_all_fail {α : Type} (d : Json)
    (cands : List (String × (Json → Except PyErr α)))
    (hf : ∀ c ∈ cands, ∃ e, c.2 d = Except.error e) :
    tryCandidates d cands = none := by
  induction cands with
  | nil => rfl
  | cons c cs ih =>
    obtain ⟨nm, f⟩ := c
    obtain ⟨e, he⟩ := hf (nm, f) (by simp)
    simp only [tryCandidates] at *
    rw [he]
    exact ih (fun c hc => hf c (by simp [hc]))

/-- A record type with two overlapping shapes: `sub` requires
attributes `a` and `b`, `sup` only `a` (the subtype/supertype pair of
the spec's decode-ordering property). -/
inductive SubSup where
  | sub (a b : Int)
  | sup (a : Int)
deriving DecidableEq

/-- `from_dict` of the subtype: needs both `a` and `b`. -/
def subFromDict : Json → Except PyErr SubSup := fun j =>
  match j.getField "a", j.getField "b" with
  | some (Json.num a), some (Json.num b) => .ok (.sub a b)
  | _, _ => .error (.typeError "missing attribute")

/-- `from_dict` of the supertype: needs only `a`. -/
def supFromDict : Json → Except PyErr SubSup := fun j =>
  match j.getField "a" with
  | some (Json.num a) => .ok (.sup a)
  | _ => .error (.typeError "missing attribute")

/-- A payload structurally matching both `subFromDict` and
`supFromDict`. -/
def subSupPayload : Json := Json.obj [("a", Json.num 1), ("b", Json.num 2)]

/-- A `from_dict` that always fails. -/
def failFromDict : Json → Except PyErr SubSup :=
  fun _ => .error (.typeError "always fails")

/-- Claim C3: the polymorphic decoder tries union candidates in
declared order and returns the first successful structural
construction; for candidates `[Subtype, Supertype]` and a payload
matching both, the result is built as the subtype; if every candidate
fails, decoding fails with a `ValueError` naming the attempted types. -/
theorem c3_polymorphic_decode_first_match :
    (∀ (α : Type) (d : Json) (cands₁ : List (String × (Json → Except PyErr α))) (n : String)
      (dec : Json → Except PyErr α) (cands₂ : List (String × (Json → Except PyErr α))) (v : α),
      (∀ c ∈ cands₁, ∃ e, c.2 d = Except.error e) → dec d = Except.ok v →
      convertDict d (ReturnType.union (cands₁ ++ (n, dec) :: cands₂)) = Except.ok v) ∧
    (∀ (α : Type) (d : Json) (cands : List (String × (Json → Except PyErr α))),
      (∀ c ∈ cands, ∃ e, c.2 d = Except.error e) →
      convertDict d (ReturnType.union cands) =
        Except.error (PyErr.valueError (couldNotConvertMsg cands))) ∧
    (supFromDict subSupPayload = Except.ok (SubSup.sup 1) ∧
      subFromDict subSupPayload = Except.ok (SubSup.sub 1 2) ∧
      convertDict subSupPayload
          (ReturnType.union [("Sub", subFromDict), ("Sup", supFromDict)]) =
        Except.ok (SubSup.sub 1 2)) := by
  refine ⟨?_, ?_, rfl, rfl, rfl⟩
  · intro α d cands₁ n dec cands₂ v hf hd
    simp [convertDict, tryCandidates_first_success d cands₁ n dec cands₂ v hf hd]
  · intro α d cands hf
    simp [convertDict, tryCandidates_all_fail d cands hf]

/-- Witness for Claim C3: first-match-wins evaluated at a concrete
candidate list whose first candidate fails. -/
theorem c3_polymorphic_decode_first_match_witness :
    convertDict subSupPayload
        (ReturnType.union [("Fail", failFromDict), ("Sup", supFromDict)]) =
      Except.ok (SubSup.sup 1) :=
  c3_polymorphic_decode_first_match.1 SubSup subSupPayload [("Fail", failFromDict)]
    "Sup" supFromDict [] (SubSup.sup 1)
    (fun c hc => by
      simp at hc
      subst hc
      exact ⟨PyErr.typeError "always fails", rfl⟩)
    rfl

/-- Looking up a key just popped from a header dict finds nothing. -/
theorem alookup_removeKey {β : Type} (k : String) (l : List (String × β)) :
    alookup k (removeKey k l) = none := by
  induction l with
  | nil => rfl
  | cons kv rest ih =>
    rcases kv with ⟨k', v⟩
    by_cases h : k' = k
    · subst h
      simpa [removeKey, List.filter_cons] using ih
    · simpa [removeKey, List.filter_cons, h, alookup] using ih

/-! ## Claim C4 -/

/-- Claim C4 (counterexample): the spec says that, with no auth token
ever set, assigning `use_auth = False` fails with a configuration
error.  On the code it succeeds: the setter only raises when the
*True* branch is taken without a token. -/
theorem c4_use_auth_false_counterexample :
    setUseAuth testClient false =
      Except.ok { testClient with
        authorization := none
        session_headers := [("User-Agent", "ua")] } := rfl

/-- Claim C4 (amended): for a client on which no auth token has ever
been set, assigning `use_auth = False` succeeds (it merely clears the
derived header and pops any `Authorization` session header); it is
assigning `use_auth = True` without a token that fails, with
`ValueError`. -/
theorem c4_use_auth_toggle_amended (c : AsyncCloud) (h : c.auth_token = none) :
    (∃ e, setUseAuth c true = Except.error e) ∧
    (∃ c', setUseAuth c false = Except.ok c' ∧ c'.authorization = none ∧
      alookup "Authorization" c'.session_headers = none) := by
  constructor
  · exact ⟨PyErr.valueError "Cannot set use_auth to True without an auth token.",
      by simp [setUseAuth, h, pyTruthyOptStr]⟩
  · refine ⟨{ c with
        authorization := none
        session_headers := removeKey "Authorization" c.session_headers },
      rfl, rfl, ?_⟩
    exact alookup_removeKey "Authorization" c.session_headers

/-- Witness for Claim C4's amended theorem, at the concrete
token-less client. -/
theorem c4_use_auth_toggle_amended_witness :
    (∃ e, setUseAuth testClient true = Except.error e) ∧
    (∃ c', setUseAuth testClient false = Except.ok c' ∧ c'.authorization = none ∧
      alookup "Authorization" c'.session_headers = none) :=
  c4_use_auth_toggle_amended testClient rfl

/-! ## Claim C5 -/

/-- Claim C5: setting the auth token to `"abc"` and to `"OAuth abc"`
produce the identical derived authorization header (`"OAuth abc"`, the
scheme marker being normalized away), and clearing the token (the
deleter) removes the derived header entirely. -/
theorem c5_auth_token_normalization (c : AsyncCloud) :
    (setAuthToken c (some "abc")).authorization =
      (setAuthToken c (some "OAuth abc")).authorization ∧
    (setAuthToken c (some "abc")).authorization = some "OAuth abc" ∧
    (setAuthToken c (some "abc")).auth_token = (setAuthToken c (some "OAuth abc")).auth_token ∧
    (delAuthToken c).authorization = none ∧
    (delAuthToken c).auth_token = none :=
  ⟨rfl, rfl, rfl, rfl, rfl⟩

/-! ## Claim C9 -/

/-- Claim C9: `get_user_by_username` returns `None` for every username
and every resolution outcome: the `resolve` call is not awaited, so
`resource` is a coroutine object and `isinstance(resource, User)` is
always false — even when the username resolves to an existing user. -/
theorem c9_get_user_by_username_always_none (server : String → PyObject) (username : String) :
    getUserByUsername server username = none := rfl

/-! ## Claim C10 -/

/-- Claim C10: reading `use_auth` reports only whether an auth token
is stored.  For every client holding a token, assigning
`use_auth = False` succeeds and removes the `Authorization` session
header, yet leaves the token in place, so `use_auth` still reads
`True` immediately afterwards. -/
theorem c10_use_auth_reads_token_presence (c : AsyncCloud) (h : c.auth_token.isSome = true) :
    ∃ c', setUseAuth c false = Except.ok c' ∧ useAuth c' = true ∧
      c'.auth_token = c.auth_token ∧
      alookup "Authorization" c'.session_headers = none := by
  refine ⟨{ c with
      authorization := none
      session_headers := removeKey "Authorization" c.session_headers },
    rfl, ?_, rfl, ?_⟩
  · simpa [useAuth] using h
  · exact alookup_removeKey "Authorization" c.session_headers

/-- Witness for Claim C10 at a concrete client holding a token. -/
theorem c10_use_auth_reads_token_presence_witness :
    ∃ c', setUseAuth testClientAuthed false = Except.ok c' ∧ useAuth c' = true ∧
      c'.auth_token = testClientAuthed.auth_token ∧
      alookup "Authorization" c'.session_headers = none :=
  c10_use_auth_reads_token_presence testClientAuthed rfl

/-! ## Claim C6 -/

/-- Restricting a parameter mapping to a key set does not change
lookups of keys in that set (the popped `args` dict of the templater
agrees with the full mapping on every placeholder). -/
theorem alookup_filter_of_mem (fns : List String) (kwargs : List (String × PyVal))
    (n : String) (hn : n ∈ fns) :
    alookup n (kwargs.filter (fun kv => decide (kv.1 ∈ fns))) = alookup n kwargs := by
  induction kwargs with
  | nil => rfl
  | cons kv rest ih =>
    rcases kv with ⟨k, v⟩
    by_cases hkn : k = n
    · subst hkn
      have hk : k ∈ fns := hn
      simp [List.filter_cons, hk, alookup]
    · by_cases hk : k ∈ fns
      · simpa [List.filter_cons, hk, alookup, hkn] using ih
      · simpa [List.filter_cons, hk, alookup, hkn] using ih

/-- A leading literal contributes no field name. -/
theorem fieldNames_cons_lit (t : String) (rest : List FmtSeg) :
    fieldNames (FmtSeg.lit t :: rest) = fieldNames rest := rfl

/-- A leading field contributes its name. -/
theorem fieldNames_cons_field (n : String) (rest : List FmtSeg) :
    fieldNames (FmtSeg.field n :: rest) = n :: fieldNames rest := rfl

/-- Rendering a template against the popped `args` dict gives the same
result as rendering against the full parameter mapping. -/
theorem renderFmt_filter (fns : List String) (kwargs : List (String × PyVal)) :
    ∀ segs : List FmtSeg, (∀ n ∈ fieldNames segs, n ∈ fns) →
    renderFmt (kwargs.filter (fun kv => decide (kv.1 ∈ fns))) segs = renderFmt kwargs segs := by
  intro segs
  induction segs with
  | nil => intro _; rfl
  | cons s rest ih =>
    intro hf
    cases s with
    | lit t =>
      have ih2 := ih (fun n hn => hf n (by rw [fieldNames_cons_lit]; exact hn))
      simp [renderFmt, ih2]
    | field n =>
      have hn : n ∈ fns := hf n (by rw [fieldNames_cons_field]; exact List.mem_cons_self n _)
      have ih2 := ih (fun m hm =>
        hf m (by rw [fieldNames_cons_field]; exact List.mem_cons_of_mem n hm))
      simp only [renderFmt, alookup_filter_of_mem fns kwargs n hn]
      cases alookup n kwargs with
      | none => rfl
      | some v => simp [ih2]

/-- When every placeholder of a template has a value in the mapping,
rendering succeeds. -/
theorem renderFmt_isOk (kwargs : List (String × PyVal)) :
    ∀ segs : List FmtSeg, (∀ n ∈ fieldNames segs, (alookup n kwargs).isSome = true) →
    ∃ r, renderFmt kwargs segs = Except.ok r := by
  intro segs
  induction segs with
  | nil => intro _; exact ⟨"", rfl⟩
  | cons s rest ih =>
    intro hall
    cases s with
    | lit t =>
      obtain ⟨r, hr⟩ := ih (fun n hn => hall n (by rw [fieldNames_cons_lit]; exact hn))
      exact ⟨t ++ r, by simp [renderFmt, hr, Bind.bind, Except.bind, pure, Except.pure]⟩
    | field n =>
      have hn := hall n (by rw [fieldNames_cons_field]; exact List.mem_cons_self n _)
      obtain ⟨v, hv⟩ := Option.isSome_iff_exists.1 hn
      obtain ⟨r, hr⟩ := ih (fun m hm =>
        hall m (by rw [fieldNames_cons_field]; exact List.mem_cons_of_mem n hm))
      exact ⟨pyStr v ++ r,
        by simp [renderFmt, hv, hr, Bind.bind, Except.bind, pure, Except.pure]⟩

/-- Claim C6: for every path template and parameter mapping supplying
all placeholders, `_format_url_and_remove_params` succeeds; the
resolved URL is the base prefix followed by the template with each
placeholder replaced by its parameter's value (rendering against the
full input mapping), and the residual parameters are exactly the input
mapping minus the placeholder keys. -/
theorem c6_url_templating (tpl : String) (kwargs : List (String × PyVal))
    (segs : List FmtSeg) (hp : parseFmt tpl = Except.ok segs)
    (hall : ∀ n ∈ fieldNames segs, (alookup n kwargs).isSome = true) :
    (renderFmt kwargs segs).isOk = true ∧
    formatUrlAndRemoveParams tpl kwargs =
      (renderFmt kwargs segs).map
        (fun r => (requestBase ++ r,
          kwargs.filter (fun kv => decide (kv.1 ∉ fieldNames segs)))) := by
  obtain ⟨r, hr⟩ := renderFmt_isOk kwargs segs hall
  have hfil : renderFmt (kwargs.filter (fun kv => decide (kv.1 ∈ fieldNames segs))) segs
      = renderFmt kwargs segs :=
    renderFmt_filter (fieldNames segs) kwargs segs (fun n hn => hn)
  constructor
  · rw [hr]; rfl
  · unfold formatUrlAndRemoveParams
    rw [hp]
    simp [Bind.bind, Except.bind, hfil, hr, Except.map, pure, Except.pure]

/-- Witness for Claim C6: the spec's templating example — template
with placeholders `a` and `b`, mapping `a=1, b=2, c=3`, resolved URL
containing the literals `1` and `2`, residual `c=3`. -/
theorem c6_url_templating_witness :
    ((renderFmt kwargsABC segsAB).isOk = true ∧
      formatUrlAndRemoveParams "/x/{a}/{b}" kwargsABC =
        (renderFmt kwargsABC segsAB).map
          (fun r => (requestBase ++ r,
            kwargsABC.filter (fun kv => decide (kv.1 ∉ fieldNames segsAB))))) ∧
    formatUrlAndRemoveParams "/x/{a}/{b}" kwargsABC =
      Except.ok ("https://api-v2.soundcloud.com/x/1/2", [("c", PyVal.int 3)]) :=
  ⟨c6_url_templating "/x/{a}/{b}" kwargsABC segsAB rfl (by decide), rfl⟩

/-! ## Claim C2 -/

/-- When every record of a `collection` array decodes, the yield loop
yields exactly the decoded records, in array order, with no error. -/
theorem decodeEach_of_decodeList {α : Type} (rt : ReturnType α) :
    ∀ (items : List Json) (d : List α), decodeList rt items = Except.ok d →
    decodeEach rt items = (d.map CollEv.yielded, none) := by
  intro items
  induction items with
  | nil =>
    intro d h
    simp [decodeList] at h
    subst h
    rfl
  | cons j rest ih =>
    intro d h
    simp only [decodeList] at h
    cases hc : convertDict j rt with
    | error e => rw [hc] at h; simp at h
    | ok v =>
      rw [hc] at h
      cases hr : decodeList rt rest with
      | error e => rw [hr] at h; simp at h
      | ok vs =>
        rw [hr] at h
        simp at h
        subst h
        simp [decodeEach, hc, ih vs hr]

/-- One iteration of the pagination loop against a decodable 200-page:
it fetches, yields the page's records, and continues at the request
state the cursor induces. -/
theorem collLoop_step {α : Type} (rt : ReturnType α) (cid : String) (p : PageSpec)
    (rest : List HttpResp) (url : String) (params : List (String × PyVal)) (d : List α)
    (hurl : url ≠ "") (hd : decodeList rt p.records = Except.ok d) :
    collLoop rt cid (pageResp p :: rest) url params =
      (CollEv.fetch url params ::
        (d.map CollEv.yielded ++
          (collLoop rt cid rest (pageNextUrl p) (pageNextParams cid p)).1),
       (collLoop rt cid rest (pageNextUrl p) (pageNextParams cid p)).2) := by
  have hde := decodeEach_of_decodeList rt p.records d hd
  rw [collLoop]
  cases hnx : p.next_href with
  | none =>
    simp [hurl, pageResp, Json.getField, alookup, pyIter, hde, hnx,
      pageNextUrl, pageNextParams]
  | some s =>
    simp [hurl, pageResp, Json.getField, alookup, pyIter, hde, hnx,
      pageNextUrl, pageNextParams, cursorParams]

/-- The pagination loop over a chain of decodable pages whose last
page has no cursor: it runs to normal termination and its trace is one
fetch per page — the first at the initial request state, each later
one at the cursor-derived state — each followed by that page's yields. -/
theorem collLoop_chain {α : Type} (rt : ReturnType α) (cid : String) :
    ∀ (pages : List PageSpec) (nexts : List String) (ds : List (List α))
      (url : String) (params : List (String × PyVal)),
    url ≠ "" →
    pages.map PageSpec.next_href = nexts.map some ++ [none] →
    List.Forall₂ (fun (p : PageSpec) (d : List α) => decodeList rt p.records = Except.ok d)
      pages ds →
    (∀ u ∈ nexts, urlStripQuery u ≠ "") →
    collLoop rt cid (pages.map pageResp) url params =
      (traceShape ds ((url, params) :: nexts.map (fetchSpec cid)), CollEnd.finished) := by
  intro pages
  induction pages with
  | nil =>
    intro nexts ds url params hurl hnext hdec hcur
    exfalso
    have h := congrArg List.length hnext
    simp at h
  | cons p ps ih =>
    intro nexts ds url params hurl hnext hdec hcur
    obtain ⟨d, ds2, hd, hdec2, rfl⟩ := List.forall₂_cons_left_iff.1 hdec
    cases nexts with
    | nil =>
      simp only [List.map_nil, List.nil_append, List.map_cons] at hnext
      have hpnone : p.next_href = none := (List.cons_eq_cons.1 hnext).1
      have hps : ps.map PageSpec.next_href = [] := (List.cons_eq_cons.1 hnext).2
      have hps2 : ps = [] := List.map_eq_nil_iff.1 hps
      subst hps2
      have hds2 : ds2 = [] := by cases hdec2; rfl
      subst hds2
      rw [List.map_cons, List.map_nil, collLoop_step rt cid p [] url params d hurl hd]
      rw [collLoop]
      simp [pageNextUrl, hpnone, traceShape]
    | cons u us =>
      simp only [List.map_cons, List.cons_append] at hnext
      have hpu : p.next_href = some u := (List.cons_eq_cons.1 hnext).1
      have hps : ps.map PageSpec.next_href = us.map some ++ [none] :=
        (List.cons_eq_cons.1 hnext).2
      have hu : urlStripQuery u ≠ "" := hcur u (List.mem_cons_self u us)
      have hcur2 : ∀ w ∈ us, urlStripQuery w ≠ "" :=
        fun w hw => hcur w (List.mem_cons_of_mem u hw)
      rw [List.map_cons, collLoop_step rt cid p (ps.map pageResp) url params d hurl hd]
      rw [ih us ds2 (pageNextUrl p) (pageNextParams cid p)
        (by simp [pageNextUrl, hpu, hu]) hps hdec2 hcur2]
      simp [traceShape, pageNextUrl, pageNextParams, hpu, fetchSpec]

/-- A successfully resolved request URL is never the empty string
(it starts with the API base). -/
theorem formatUrl_ne_empty {tpl : String} {kwargs : List (String × PyVal)}
    {u : String} {r : List (String × PyVal)}
    (h : formatUrlAndRemoveParams tpl kwargs = Except.ok (u, r)) : u ≠ "" := by
  unfold formatUrlAndRemoveParams at h
  cases hp : parseFmt tpl with
  | error e => rw [hp] at h; simp [Bind.bind, Except.bind] at h
  | ok segs =>
    rw [hp] at h
    simp only [Bind.bind, Except.bind] at h
    cases hr : renderFmt (kwargs.filter fun kv => decide (kv.1 ∈ fieldNames segs)) segs with
    | error e => rw [hr] at h; simp at h
    | ok s =>
      rw [hr] at h
      simp only [pure, Except.pure, Except.ok.injEq, Prod.mk.injEq] at h
      intro hu
      have hlen := congrArg String.length (h.1.trans hu)
      simp [String.length_append] at hlen
      exact absurd hlen.1 (by decide)

/-- `CollectionRequest.__call__` over a decodable page chain: the full
entry point (URL templating plus initial params) runs the chain to
normal termination. -/
theorem collectionCall_chain {α : Type} (req : CollectionRequestDef α) (cid : String)
    (offset limit : Option PyVal) (kwargs : List (String × PyVal))
    (url0 : String) (residual : List (String × PyVal))
    (pages : List PageSpec) (nexts : List String) (ds : List (List α))
    (hfmt : formatUrlAndRemoveParams req.format_url kwargs = Except.ok (url0, residual))
    (hnext : pages.map PageSpec.next_href = nexts.map some ++ [none])
    (hdec : List.Forall₂
      (fun (p : PageSpec) (d : List α) => decodeList req.return_type p.records = Except.ok d)
      pages ds)
    (hcur : ∀ u ∈ nexts, urlStripQuery u ≠ "") :
    req.call cid offset limit kwargs (pages.map pageResp) =
      Except.ok (traceShape ds
        ((url0, initParams cid offset limit residual) :: nexts.map (fetchSpec cid)),
        CollEnd.finished) := by
  have hurl : url0 ≠ "" := formatUrl_ne_empty hfmt
  unfold CollectionRequestDef.call
  rw [hfmt]
  simp only [Bind.bind, Except.bind, pure, Except.pure]
  rw [collLoop_chain req.return_type cid pages nexts ds url0
    (initParams cid offset limit residual) hurl hnext hdec hcur]

/-- A block of yields contains no records beyond its own. -/
theorem yieldsOf_map_yielded {α : Type} (d : List α) :
    yieldsOf (d.map CollEv.yielded) = d := by
  induction d with
  | nil => rfl
  | cons x xs ih => simpa [yieldsOf, List.filterMap_cons] using ih

/-- The records of a chain trace: the decoded pages concatenated in
page order. -/
theorem yieldsOf_traceShape {α : Type} :
    ∀ (ds : List (List α)) (fs : List (String × List (String × PyVal))),
    ds.length ≤ fs.length → yieldsOf (traceShape ds fs) = ds.flatten := by
  intro ds
  induction ds with
  | nil => intro fs _; cases fs <;> rfl
  | cons d ds2 ih =>
    intro fs hlen
    cases fs with
    | nil => simp at hlen
    | cons f fs2 =>
      simp only [traceShape, yieldsOf, List.filterMap_cons, List.filterMap_append]
      have ih2 := ih fs2 (by simp at hlen; omega)
      simp only [yieldsOf] at ih2
      simp [ih2, List.flatten]
      have := yieldsOf_map_yielded d
      simpa [yieldsOf] using this

/-- A block of yields issues no HTTP requests. -/
theorem fetchesOf_map_yielded {α : Type} (d : List α) :
    fetchesOf (d.map CollEv.yielded) = [] := by
  induction d with
  | nil => rfl
  | cons x xs ih => simp [fetchesOf, List.filterMap_cons, ih]

/-- The requests of a chain trace are exactly the per-page request
states. -/
theorem fetchesOf_traceShape {α : Type} :
    ∀ (ds : List (List α)) (fs : List (String × List (String × PyVal))),
    fs.length = ds.length → fetchesOf (traceShape ds fs) = fs := by
  intro ds
  induction ds with
  | nil =>
    intro fs hlen
    have : fs = [] := List.length_eq_zero.1 (by simpa using hlen)
    subst this
    rfl
  | cons d ds2 ih =>
    intro fs hlen
    cases fs with
    | nil => simp at hlen
    | cons f fs2 =>
      simp only [traceShape, fetchesOf, List.filterMap_cons, List.filterMap_append]
      have ih2 := ih fs2 (by simpa using hlen)
      simp only [fetchesOf] at ih2
      have hm := fetchesOf_map_yielded (α := α) d
      simp only [fetchesOf] at hm
      simp [ih2, hm]

/-- Claim C2: over any chain of successfully decoded pages, the
paginated-collection request yields each page's decoded records in
array order, concatenated in page order; the sequence ends after the
records of the first page without a `next_href`; and every follow-up
request is issued against the cursor URL (query stripped) with the
cursor's embedded query parameters re-merged with the mandatory
`client_id`. -/
theorem c2_pagination_chain {α : Type} (req : CollectionRequestDef α) (cid : String)
    (offset limit : Option PyVal) (kwargs : List (String × PyVal))
    (url0 : String) (residual : List (String × PyVal))
    (pages : List PageSpec) (nexts : List String) (ds : List (List α))
    (hfmt : formatUrlAndRemoveParams req.format_url kwargs = Except.ok (url0, residual))
    (hnext : pages.map PageSpec.next_href = nexts.map some ++ [none])
    (hdec : List.Forall₂
      (fun (p : PageSpec) (d : List α) => decodeList req.return_type p.records = Except.ok d)
      pages ds)
    (hcur : ∀ u ∈ nexts, urlStripQuery u ≠ "") :
    req.call cid offset limit kwargs (pages.map pageResp) =
      Except.ok (traceShape ds
        ((url0, initParams cid offset limit residual) :: nexts.map (fetchSpec cid)),
        CollEnd.finished) ∧
    yieldsOf (traceShape ds
        ((url0, initParams cid offset limit residual) :: nexts.map (fetchSpec cid))) =
      ds.flatten ∧
    fetchesOf (traceShape ds
        ((url0, initParams cid offset limit residual) :: nexts.map (fetchSpec cid))) =
      (url0, initParams cid offset limit residual) :: nexts.map (fetchSpec cid) := by
  have hlen1 : pages.length = ds.length := List.Forall₂.length_eq hdec
  have hlen2 : pages.length = nexts.length + 1 := by
    have := congrArg List.length hnext
    simpa using this
  refine ⟨collectionCall_chain req cid offset limit kwargs url0 residual pages nexts ds
    hfmt hnext hdec hcur, ?_, ?_⟩
  · exact yieldsOf_traceShape ds _ (by simp; omega)
  · exact fetchesOf_traceShape ds _ (by simp; omega)

/-- Witness for Claim C2: the spec's three-page chain
(page1 → page2 → page3 → no-next) against the search-tracks endpoint,
yielding the five records of the three pages in page order. -/
theorem c2_pagination_chain_witness :
    searchReq.call "CID" none none [] ([wpage1, wpage2, wpage3].map pageResp) =
      Except.ok (traceShape [[(1 : Int), 2], [3], [4, 5]]
        (("https://api-v2.soundcloud.com/search/tracks", initParams "CID" none none []) ::
          [cursor2, cursor3].map (fetchSpec "CID")),
        CollEnd.finished) ∧
    yieldsOf (traceShape [[(1 : Int), 2], [3], [4, 5]]
        (("https://api-v2.soundcloud.com/search/tracks", initParams "CID" none none []) ::
          [cursor2, cursor3].map (fetchSpec "CID"))) =
      [[(1 : Int), 2], [3], [4, 5]].flatten ∧
    fetchesOf (traceShape [[(1 : Int), 2], [3], [4, 5]]
        (("https://api-v2.soundcloud.com/search/tracks", initParams "CID" none none []) ::
          [cursor2, cursor3].map (fetchSpec "CID"))) =
      ("https://api-v2.soundcloud.com/search/tracks", initParams "CID" none none []) ::
        [cursor2, cursor3].map (fetchSpec "CID") :=
  c2_pagination_chain searchReq "CID" none none []
    "https://api-v2.soundcloud.com/search/tracks" []
    [wpage1, wpage2, wpage3] [cursor2, cursor3] [[(1 : Int), 2], [3], [4, 5]]
    rfl rfl
    (List.Forall₂.cons rfl (List.Forall₂.cons rfl (List.Forall₂.cons rfl List.Forall₂.nil)))
    (by decide)

/-! ## Claim C8 -/

/-- Consuming zero records executes nothing. -/
theorem consumedTrace_zero {α : Type} (t : List (CollEv α)) : consumedTrace 0 t = [] := by
  cases t <;> rfl

/-- Consuming at most the records of a leading block of yields never
reaches the events behind it. -/
theorem consumedTrace_yields {α : Type} :
    ∀ (xs : List α) (k : Nat) (rest : List (CollEv α)), k ≤ xs.length →
    consumedTrace k (xs.map CollEv.yielded ++ rest) = (xs.take k).map CollEv.yielded := by
  intro xs
  induction xs with
  | nil =>
    intro k rest hk
    have hk0 : k = 0 := by simpa using hk
    subst hk0
    simp [consumedTrace_zero]
  | cons x xs2 ih =>
    intro k rest hk
    cases k with
    | zero => simp [consumedTrace_zero]
    | succ k2 =>
      simp only [List.map_cons, List.cons_append, consumedTrace, List.take_succ_cons,
        List.append_eq]
      rw [ih k2 rest (by simp at hk; omega)]

/-- A leading fetch event heads the request list. -/
theorem fetchesOf_fetch_cons {α : Type} (u : String) (p : List (String × PyVal))
    (t : List (CollEv α)) :
    fetchesOf (CollEv.fetch u p :: t) = (u, p) :: fetchesOf t := by
  simp [fetchesOf, List.filterMap_cons]

/-- Claim C8: pagination is lazy — no page is fetched before its
records are about to be yielded.  For a two-page sequence, a consumer
that takes only `k` records of the first page (any `1 ≤ k` up to the
whole first page) executes a trace prefix containing exactly one HTTP
fetch: stopping early never triggers the fetch of the second page. -/
theorem c8_pagination_laziness {α : Type} (req : CollectionRequestDef α) (cid : String)
    (offset limit : Option PyVal) (kwargs : List (String × PyVal))
    (url0 : String) (residual : List (String × PyVal))
    (p1 p2 : PageSpec) (u : String) (d1 d2 : List α) (k : Nat)
    (hfmt : formatUrlAndRemoveParams req.format_url kwargs = Except.ok (url0, residual))
    (h1 : p1.next_href = some u) (h2 : p2.next_href = none)
    (hd1 : decodeList req.return_type p1.records = Except.ok d1)
    (hd2 : decodeList req.return_type p2.records = Except.ok d2)
    (hu : urlStripQuery u ≠ "")
    (hk1 : 1 ≤ k) (hk2 : k ≤ d1.length) :
    req.call cid offset limit kwargs [pageResp p1, pageResp p2] =
      Except.ok (traceShape [d1, d2]
        ((url0, initParams cid offset limit residual) :: [fetchSpec cid u]),
        CollEnd.finished) ∧
    (fetchesOf (consumedTrace k (traceShape [d1, d2]
        ((url0, initParams cid offset limit residual) :: [fetchSpec cid u])))).length = 1 := by
  constructor
  · exact collectionCall_chain req cid offset limit kwargs url0 residual [p1, p2] [u]
      [d1, d2] hfmt (by simp [h1, h2])
      (List.Forall₂.cons hd1 (List.Forall₂.cons hd2 List.Forall₂.nil))
      (by simpa using hu)
  · obtain ⟨k2, rfl⟩ : ∃ k2, k = k2 + 1 := ⟨k - 1, by omega⟩
    simp only [traceShape, consumedTrace]
    rw [consumedTrace_yields d1 (k2 + 1) _ hk2]
    rw [fetchesOf_fetch_cons, fetchesOf_map_yielded]
    rfl

/-- Witness for Claim C8: a concrete two-page sequence of which only
the first record is consumed; the consumer's trace contains exactly
one fetch. -/
theorem c8_pagination_laziness_witness :
    searchReq.call "CID" none none [] [pageResp wpage1, pageResp wpage3] =
      Except.ok (traceShape [[(1 : Int), 2], [4, 5]]
        (("https://api-v2.soundcloud.com/search/tracks", initParams "CID" none none []) ::
          [fetchSpec "CID" cursor2]),
        CollEnd.finished) ∧
    (fetchesOf (consumedTrace 1 (traceShape [[(1 : Int), 2], [4, 5]]
        (("https://api-v2.soundcloud.com/search/tracks", initParams "CID" none none []) ::
          [fetchSpec "CID" cursor2])))).length = 1 :=
  c8_pagination_laziness searchReq "CID" none none []
    "https://api-v2.soundcloud.com/search/tracks" []
    wpage1 wpage3 cursor2 [(1 : Int), 2] [4, 5] 1
    rfl rfl rfl rfl rfl (by decide) (by decide) (by decide)

/-! ## Claim C7 -/

/-- The per-comment loop body succeeds and preserves the comment
whenever the user interaction carries counts (the in-loop assert). -/
theorem enrichOne_ok (c : BasicComment) (ui ci : UserInteraction)
    (h : ui.interactionCounts ≠ none) :
    ∃ out, enrichOne c ui ci = Except.ok out ∧ out.comment = c := by
  cases hic : ui.interactionCounts with
  | none => exact absurd hic h
  | some counts =>
    simp only [enrichOne, hic]
    exact ⟨_, rfl, rfl⟩

/-- A batch whose interaction lists match the chunk in length enriches
completely, preserving the chunk's comments in order. -/
theorem enrichChunk_ok :
    ∀ (chunk : List BasicComment) (us cs : List UserInteraction),
    us.length = chunk.length → cs.length = chunk.length →
    (∀ ui ∈ us, ui.interactionCounts ≠ none) →
    ∃ outs, enrichChunk chunk us cs = Except.ok outs ∧
      outs.map (fun o => o.comment) = chunk := by
  intro chunk
  induction chunk with
  | nil =>
    intro us cs hu hc _
    have hu0 : us = [] := List.length_eq_zero.1 (by simpa using hu)
    have hc0 : cs = [] := List.length_eq_zero.1 (by simpa using hc)
    subst hu0
    subst hc0
    exact ⟨[], rfl, rfl⟩
  | cons c chunk2 ih =>
    intro us cs hu hc hcnt
    cases us with
    | nil => simp at hu
    | cons ui us2 =>
      cases cs with
      | nil => simp at hc
      | cons ci cs2 =>
        obtain ⟨out, ho, hoc⟩ := enrichOne_ok c ui ci (hcnt ui (List.mem_cons_self ui us2))
        obtain ⟨outs, hall, hmap⟩ := ih us2 cs2
          (by simp at hu ⊢; omega) (by simp at hc ⊢; omega)
          (fun ui2 h2 => hcnt ui2 (List.mem_cons_of_mem ui h2))
        refine ⟨out :: outs, ?_, by simp [hoc, hmap]⟩
        simp only [enrichChunk, pyZip3, enrichAll, ho]
        simp only [enrichChunk] at hall
        simp [hall]

/-- The batch loop under an oracle that answers every query with
matching-length interaction lists: it emits all comments in order, one
query per batch of 10, and raises nothing. -/
theorem commentsLoop_spec
    (oracle : UserInteractionsQueryParams → Option UserInteractionsQueryResult)
    (tu cu : String)
    (hor : ∀ urns : List String, urns ≠ [] →
      ∃ r, oracle (mkInteractionParams tu cu urns) = some r ∧
        r.user.length = urns.length ∧ r.creator.length = urns.length ∧
        ∀ ui ∈ r.user, ui.interactionCounts ≠ none) :
    ∀ (cs : List BasicComment),
    (commentsLoop oracle tu cu cs).1.map (fun o => o.comment) = cs ∧
    (commentsLoop oracle tu cu cs).2.1 =
      (chunks10 cs).map (fun ch => mkInteractionParams tu cu (ch.map (fun c => c.self_urn))) ∧
    (commentsLoop oracle tu cu cs).2.2 = none := by
  have main : ∀ (n : Nat) (cs : List BasicComment), cs.length ≤ n →
      (commentsLoop oracle tu cu cs).1.map (fun o => o.comment) = cs ∧
      (commentsLoop oracle tu cu cs).2.1 =
        (chunks10 cs).map (fun ch => mkInteractionParams tu cu (ch.map (fun c => c.self_urn))) ∧
      (commentsLoop oracle tu cu cs).2.2 = none := by
    intro n
    induction n with
    | zero =>
      intro cs hcs
      have h0 : cs = [] := List.length_eq_zero.1 (by omega)
      subst h0
      refine ⟨?_, ?_, ?_⟩ <;> simp [commentsLoop, chunks10]
    | succ n ih =>
      intro cs hcs
      cases cs with
      | nil => refine ⟨?_, ?_, ?_⟩ <;> simp [commentsLoop, chunks10]
      | cons c0 cs0 =>
        have hchunk : ((c0 :: cs0).take 10).map (fun c => c.self_urn) ≠ [] := by
          simp [List.take_succ_cons]
        obtain ⟨r, horq, hlu, hlc, hcnt⟩ :=
          hor (((c0 :: cs0).take 10).map (fun c => c.self_urn)) hchunk
        obtain ⟨outs, he, hmap⟩ := enrichChunk_ok ((c0 :: cs0).take 10) r.user r.creator
          (by simpa using hlu) (by simpa using hlc) hcnt
        have ihrec := ih ((c0 :: cs0).drop 10) (by simp at hcs ⊢; omega)
        simp only [commentsLoop, horq, he]
        refine ⟨?_, ?_, ?_⟩
        · simp only [List.map_append, hmap, ihrec.1]
          exact List.take_append_drop 10 (c0 :: cs0)
        · rw [chunks10, List.map_cons, ihrec.2.1]
        · exact ihrec.2.2
  intro cs
  exact main cs.length cs le_rfl

/-- A fifteen-element list is consumed in batches of ten and five. -/
theorem chunks10_of_length_15 {γ : Type} (cs : List γ) (h : cs.length = 15) :
    chunks10 cs = [cs.take 10, cs.drop 10] := by
  cases cs with
  | nil => simp at h
  | cons c0 cs0 =>
    rw [chunks10]
    congr 1
    cases hd : (c0 :: cs0).drop 10 with
    | nil =>
      exfalso
      have hl := congrArg List.length hd
      simp at hl h
      omega
    | cons d ds =>
      have hl : (d :: ds).length = 5 := by
        have h2 := congrArg List.length hd
        simp at h2 h ⊢
        omega
      rw [chunks10]
      have ht : (d :: ds).take 10 = d :: ds := List.take_of_length_le (by rw [hl]; omega)
      have hdr : (d :: ds).drop 10 = [] := List.drop_eq_nil_of_le (by rw [hl]; omega)
      rw [ht, hdr]
      simp [chunks10]

/-- Claim C7: for a track whose comment sequence has 15 comments and
batch size 10, the enriched-comments operation emits exactly 15
results in the original comment order, issues exactly two GraphQL
interaction-count queries — over the first ten and the last five
comment URNs — and ends without error once the comment source is
exhausted. -/
theorem c7_enriched_comments_batches (t : TrackInfo)
    (oracle : UserInteractionsQueryParams → Option UserInteractionsQueryResult)
    (cs : List BasicComment) (hlen : cs.length = 15)
    (hor : ∀ urns : List String, urns ≠ [] →
      ∃ r, oracle (mkInteractionParams t.urn t.user_urn urns) = some r ∧
        r.user.length = urns.length ∧ r.creator.length = urns.length ∧
        ∀ ui ∈ r.user, ui.interactionCounts ≠ none) :
    (getTrackCommentsWithInteractions (some t) oracle cs).1.map (fun o => o.comment) = cs ∧
    (getTrackCommentsWithInteractions (some t) oracle cs).1.length = 15 ∧
    (getTrackCommentsWithInteractions (some t) oracle cs).2.1 =
      [mkInteractionParams t.urn t.user_urn ((cs.take 10).map (fun c => c.self_urn)),
       mkInteractionParams t.urn t.user_urn ((cs.drop 10).map (fun c => c.self_urn))] ∧
    (getTrackCommentsWithInteractions (some t) oracle cs).2.1.map
      (fun q => q.targetUrns.length) = [10, 5] ∧
    (getTrackCommentsWithInteractions (some t) oracle cs).2.2 = none := by
  have hs := commentsLoop_spec oracle t.urn t.user_urn hor cs
  have hg : getTrackCommentsWithInteractions (some t) oracle cs =
      commentsLoop oracle t.urn t.user_urn cs := rfl
  rw [hg]
  have hch := chunks10_of_length_15 cs hlen
  refine ⟨hs.1, ?_, ?_, ?_, hs.2.2⟩
  · have hl := congrArg List.length hs.1
    simpa [hlen] using hl
  · rw [hs.2.1, hch]
    rfl
  · rw [hs.2.1, hch]
    simp [mkInteractionParams, hlen]

/-- Witness for Claim C7: fifteen concrete comments against the
always-answering oracle. -/
theorem c7_enriched_comments_batches_witness :
    (getTrackCommentsWithInteractions (some ⟨"turn", "curn"⟩) okOracle cmts15).1.map
      (fun o => o.comment) = cmts15 ∧
    (getTrackCommentsWithInteractions (some ⟨"turn", "curn"⟩) okOracle cmts15).1.length = 15 ∧
    (getTrackCommentsWithInteractions (some ⟨"turn", "curn"⟩) okOracle cmts15).2.1 =
      [mkInteractionParams "turn" "curn" ((cmts15.take 10).map (fun c => c.self_urn)),
       mkInteractionParams "turn" "curn" ((cmts15.drop 10).map (fun c => c.self_urn))] ∧
    (getTrackCommentsWithInteractions (some ⟨"turn", "curn"⟩) okOracle cmts15).2.1.map
      (fun q => q.targetUrns.length) = [10, 5] ∧
    (getTrackCommentsWithInteractions (some ⟨"turn", "curn"⟩) okOracle cmts15).2.2 = none :=
  c7_enriched_comments_batches ⟨"turn", "curn"⟩ okOracle cmts15 (by simp [cmts15])
    (fun urns hne =>
      ⟨{ user := urns.map (fun _ => { interactionCounts := some [], userInteraction := none })
         creator := urns.map (fun _ =>
           { interactionCounts := some [], userInteraction := none }) },
       rfl, by simp, by simp,
       by
        intro ui hui
        rw [List.mem_map] at hui
        obtain ⟨x, hx, heq⟩ := hui
        rw [show ui = { interactionCounts := some [], userInteraction := none } from heq.symm]
        simp⟩)
